import Mathlib

/-!
Verification of the git remote resolution and checkout component and the
introspection data model of the `dagger` repository.

The introspection definitions are translated from
`codegen/introspection/introspection.go`.  The git resolution component is
not present in the provided sources (only its test suite is), so its
definitions are modelled from the specification (sections 3, 4.1-4.6);
each such definition carries a doc comment starting `Modelled from the
spec:`.
-/

/- ===================== Pattern matcher (spec 4.2) ===================== -/

/-- Modelled from the spec: the `*` case of the glob matcher (spec 4.2);
the component itself is absent from the provided sources.  `starMatch k
cs` tries the continuation `k` (the rest of the pattern) at every suffix
of `cs` reachable without consuming a path separator: `*` matches any
(possibly empty) run of characters not containing `/`. -/
def starMatch (k : List Char → Bool) : List Char → Bool
  | [] => k []
  | c :: cs => k (c :: cs) || (decide (c ≠ '/') && starMatch k cs)

/-- Modelled from the spec: the shell-style glob matcher underlying the
tag pattern matcher (spec 4.2).  `*` matches any (possibly empty) run of
non-separator characters via `starMatch`; `?` matches exactly one
non-separator character; every other pattern character matches itself;
the match is anchored at both ends. -/
def globMatch : List Char → List Char → Bool
  | [], cs => cs.isEmpty
  | '*' :: ps, cs => starMatch (globMatch ps) cs
  | '?' :: _, [] => false
  | '?' :: ps, c :: cs => decide (c ≠ '/') && globMatch ps cs
  | _ :: _, [] => false
  | p :: ps, c :: cs => decide (p = c) && globMatch ps cs

/-- Modelled from the spec: the final path segment (basename) of a name,
accumulating the current segment in reverse and restarting at each `/`. -/
def basenameAux : List Char → List Char → List Char
  | cur, [] => cur.reverse
  | _, '/' :: rest => basenameAux [] rest
  | cur, c :: rest => basenameAux (c :: cur) rest

/-- The basename (final path segment) of a tag name. -/
def basename (s : String) : String := String.mk (basenameAux [] s.data)

/-- Modelled from the spec: the three-tier tag pattern matcher of spec 4.2.
Tier 1 (ref-qualified): a pattern beginning with `refs/tags/` is glob
matched, anchored, against the fully qualified ref `refs/tags/<tag>`.
Tier 2 (prefix-qualified): a pattern containing a path separator (and not
ref-qualified) is glob matched, anchored, against the full tag name.
Tier 3 (bare): a pattern with no path separator is glob matched against
the basename of the tag name. -/
def matchTag (tagFullName pat : String) : Bool :=
  if ("refs/tags/".data).isPrefixOf pat.data then
    globMatch pat.data ("refs/tags/".data ++ tagFullName.data)
  else if pat.data.contains '/' then
    globMatch pat.data tagFullName.data
  else
    globMatch pat.data (basename tagFullName).data

/-- Modelled from the spec: tag enumeration (spec 4.2): `tags(patterns)`
keeps exactly the advertised tag names for which at least one pattern
matches, OR semantics across patterns; an empty pattern list keeps every
tag. -/
def tagsList (advertised : List String) (patterns : List String) : List String :=
  advertised.filter (fun t => patterns.isEmpty || patterns.any (fun p => matchTag t p))

/- ============= Introspection data model (introspection.go) ============= -/

namespace Introspection

/-- A GraphQL type kind, `TypeKind` in the source (a string type). -/
abbrev TypeKind := String

/-- Embeds the Go struct `Type` (fields and input fields elided: no claim
mentions them). -/
structure Ty where
  kind : TypeKind
  name : String
deriving DecidableEq, Repr

/-- Embeds the Go slice type `Types` (`[]*Type`). -/
abbrev Types := List Ty

/-- Embeds `Types.Get`: scan front to back, return the first element whose
`Name` equals the argument, `nil` (here `none`) when no element matches. -/
def Types.get : Types → String → Option Ty
  | [], _ => none
  | t :: ts, s => if t.name = s then some t else Types.get ts s

/-- Embeds the Go struct `Schema` (root type names plus the type list). -/
structure Schema where
  queryTypeName : String
  mutationTypeName : String
  subscriptionTypeName : String
  types : Types

/-- Embeds `Schema.Query`. -/
def Schema.query (s : Schema) : Option Ty := Types.get s.types s.queryTypeName

/-- Embeds `Schema.Mutation`. -/
def Schema.mutation (s : Schema) : Option Ty := Types.get s.types s.mutationTypeName

/-- Embeds `Schema.Subscription`. -/
def Schema.subscription (s : Schema) : Option Ty := Types.get s.types s.subscriptionTypeName

/-- Embeds the Go struct `TypeRef`: a kind, a name, and an optional
`OfType` chain. -/
inductive TypeRef where
  | mk (kind : TypeKind) (name : String) (ofType : Option TypeRef)

/-- The kind of a `TypeRef`. -/
def TypeRef.kind : TypeRef → TypeKind
  | .mk k _ _ => k

/-- The name of a `TypeRef`. -/
def TypeRef.name : TypeRef → String
  | .mk _ n _ => n

/-- Embeds `TypeRef.IsScalar`: walk the `OfType` chain, true as soon as a
ref of kind `SCALAR` is seen. -/
def TypeRef.isScalar : TypeRef → Bool
  | .mk k _ none => k = "SCALAR"
  | .mk k _ (some r) => k = "SCALAR" || TypeRef.isScalar r

/-- Embeds `TypeRef.IsCustomScalar`: walk the `OfType` chain; at the first
ref of kind `SCALAR`, return false when its name is one of the four
builtin scalars (`Int`, `Float`, `String`, `Boolean`) and true otherwise;
false when the chain ends with no scalar. -/
def TypeRef.isCustomScalar : TypeRef → Bool
  | .mk k n none =>
      k = "SCALAR" && !(n = "Int" || n = "Float" || n = "String" || n = "Boolean")
  | .mk k n (some r) =>
      if k = "SCALAR" then
        !(n = "Int" || n = "Float" || n = "String" || n = "Boolean")
      else TypeRef.isCustomScalar r

/-- The `OfType` chain of a ref: the ref itself followed by the chain of
its `OfType` target, exactly the sequence the Go loops traverse. -/
def TypeRef.chain : TypeRef → List TypeRef
  | .mk k n none => [.mk k n none]
  | .mk k n (some r) => .mk k n (some r) :: TypeRef.chain r

end Introspection

/- ============ Git resolution component (spec 3, 4.1-4.6) ============ -/

namespace Git

/-- Modelled from the spec: the error taxonomy of spec 7 (the component is
absent from the provided sources).  Variants carry the caller-visible
message where a claim depends on it. -/
inductive GitErr where
  | UnsupportedTransport (msg : String)
  | AuthenticationFailed (msg : String)
  | HostKeyMismatch
  | RefNotFound
  | NotAGitRepository (msg : String)
  | TransportFailure (msg : String)
deriving DecidableEq, Repr

/-- Modelled from the spec: a normalized repository location (spec 3), one
of HTTPS URL, SSH URL, or local path; the short form `host/org/repo`
normalizes to an HTTPS URL before a location value exists. -/
inductive Location where
  | https (url : String)
  | ssh (url : String)
  | localPath (path : String)
deriving DecidableEq, Repr

/-- Modelled from the spec: parsing and normalization of an input location
string (spec 6): an `https://` URL stays HTTPS, `ssh://` and scp-style
`user@host:path` strings are SSH, a path starting with `/` or `.` is
local, and the bare `host/org/repo` shorthand implies HTTPS. -/
def normalizeLocation (s : String) : Location :=
  if ("https://".data).isPrefixOf s.data then .https s
  else if ("ssh://".data).isPrefixOf s.data then .ssh s
  else if s.data.contains '@' then .ssh s
  else if ("/".data).isPrefixOf s.data || (".".data).isPrefixOf s.data then .localPath s
  else .https ("https://" ++ s)

/-- A canonical rendering of a location, used as the repository-identity
part of the digest input. -/
def renderLocation : Location → String
  | .https u => u
  | .ssh u => u
  | .localPath p => p

/-- Modelled from the spec: the authentication configuration (spec 3), at
most one of none, bearer token, raw header, or SSH socket plus known
hosts.  Secrets are embedded as their resolved string values. -/
inductive AuthConfig where
  | noAuth
  | token (secret : String)
  | header (secret : String)
  | sshSock (sock : Nat) (knownHosts : String)
deriving DecidableEq, Repr

/-- Modelled from the spec: transport-level credentials for one fetch
attempt (spec 4.1). -/
inductive TransportCredentials where
  | anonymous
  | basic (user password : String)
  | rawHeader (value : String)
  | sshAgent (sock : Nat) (knownHosts : String)
deriving DecidableEq, Repr

/-- Modelled from the spec: the auth provider (spec 4.1).  `none` yields
anonymous credentials except for SSH locations, which fail immediately
with `UnsupportedTransport`; a token becomes the password half of basic
auth under the provider username `x-access-token`; a header is passed
through opaquely; an SSH socket is used for the agent handshake. -/
def authenticate (loc : Location) (cfg : AuthConfig) : Except GitErr TransportCredentials :=
  match loc, cfg with
  | .ssh _, .noAuth =>
      .error (.UnsupportedTransport "SSH URLs are not supported without an SSH socket")
  | _, .noAuth => .ok .anonymous
  | _, .token s => .ok (.basic "x-access-token" s)
  | _, .header v => .ok (.rawHeader v)
  | _, .sshSock sock kh => .ok (.sshAgent sock kh)

/-- Modelled from the spec: a ref selector (spec 3), a closed tagged
variant. -/
inductive RefSelector where
  | head
  | branch (name : String)
  | tag (name : String)
  | commit (sha : String)
  | ref (refspec : String)
deriving DecidableEq, Repr

/-- Modelled from the spec: the ref advertisement (glossary): the full
name-to-commit mapping a remote exposes during handshake, plus the
symbolic HEAD target. -/
structure Advertisement where
  refs : List (String × String)
  headSha : Option String
deriving DecidableEq, Repr

/-- Look up a fully qualified ref name in the advertisement. -/
def lookupRef (adv : Advertisement) (name : String) : Option String :=
  adv.refs.lookup name

/-- Modelled from the spec: the state a transport `open` yields (spec
4.3): an advertisement plus an object store, here abstracted to the set
of object identifiers a targeted fetch can retrieve. -/
structure Remote where
  adv : Advertisement
  store : List String
deriving DecidableEq, Repr

/-- Modelled from the spec: the targeted object fetch `fetchObject` (spec
4.3): succeeds exactly when the store holds the identifier. -/
def fetchObject (store : List String) (id : String) : Bool :=
  store.contains id

/-- Modelled from the spec: the ref resolver (spec 4.4).  `Head` takes the
advertised symbolic HEAD; `Branch` looks up `refs/heads/<name>`; `Ref`
looks up the refspec verbatim; `Tag` looks up `refs/tags/<name>` first
and falls back to a targeted object fetch of the bare name; `Commit`
always takes the targeted object fetch path.  Every miss is
`RefNotFound`. -/
def resolveRef (adv : Advertisement) (store : List String) : RefSelector → Except GitErr String
  | .head =>
      match adv.headSha with
      | some s => .ok s
      | none => .error .RefNotFound
  | .branch n =>
      match lookupRef adv ("refs/heads/" ++ n) with
      | some s => .ok s
      | none => .error .RefNotFound
  | .ref r =>
      match lookupRef adv r with
      | some s => .ok s
      | none => .error .RefNotFound
  | .tag n =>
      match lookupRef adv ("refs/tags/" ++ n) with
      | some s => .ok s
      | none => if fetchObject store n then .ok n else .error .RefNotFound
  | .commit sha =>
      if fetchObject store sha then .ok sha else .error .RefNotFound

/-- The advertised tag names: refs under `refs/tags/` with the namespace
stripped. -/
def advertisedTags (adv : Advertisement) : List String :=
  adv.refs.filterMap fun nv =>
    if ("refs/tags/".data).isPrefixOf nv.1.data then
      some (String.mk (nv.1.data.drop ("refs/tags/".data.length)))
    else none

/-- Modelled from the spec: a remote ref resolution (spec 2 control flow):
authenticate, then open the transport (the network is an oracle from
location to remote state, consulted only after authentication succeeds),
then resolve the selector against the advertisement. -/
def remoteResolve (loc : Location) (cfg : AuthConfig) (net : Location → Remote)
    (sel : RefSelector) : Except GitErr String :=
  match authenticate loc cfg with
  | .error e => .error e
  | .ok _ => resolveRef (net loc).adv (net loc).store sel

/-- Modelled from the spec: remote tag enumeration: authenticate, open the
transport, filter the advertised tags through the pattern matcher. -/
def remoteTags (loc : Location) (cfg : AuthConfig) (net : Location → Remote)
    (patterns : List String) : Except GitErr (List String) :=
  match authenticate loc cfg with
  | .error e => .error e
  | .ok _ => .ok (tagsList (advertisedTags (net loc).adv) patterns)

/-- Modelled from the spec: the shape a local path auto-detection yields
(spec 4.3). -/
inductive PathShape where
  | worktree
  | bareRepo
  | gitDir
  | notARepo
deriving DecidableEq, Repr

/-- Modelled from the spec: a local filesystem path as the detection sees
it: whether it is a working tree holding a `.git` subdirectory, a bare
repository root, or itself a `.git` directory, together with the
repository content used when one of those holds. -/
structure LocalPath where
  hasGitSubdir : Bool
  isBareRoot : Bool
  isGitDotDir : Bool
  adv : Advertisement
  store : List String

/-- Modelled from the spec: local repository shape auto-detection (spec
4.3): a working tree containing a `.git` subdirectory, a path that is a
`.git` directory, a bare repository root, and otherwise not a git
repository. -/
def detectShape (p : LocalPath) : PathShape :=
  if p.hasGitSubdir then .worktree
  else if p.isGitDotDir then .gitDir
  else if p.isBareRoot then .bareRepo
  else .notARepo

/-- Modelled from the spec: ref resolution against a local path: detection
first; a path with no recognizable git structure fails with
`NotAGitRepository`. -/
def localResolve (p : LocalPath) (sel : RefSelector) : Except GitErr String :=
  match detectShape p with
  | .notARepo => .error (.NotAGitRepository "not a git repository")
  | _ => resolveRef p.adv p.store sel

/-- Modelled from the spec: tag enumeration against a local path:
detection first; a path with no recognizable git structure fails with
`NotAGitRepository`. -/
def localTags (p : LocalPath) (patterns : List String) : Except GitErr (List String) :=
  match detectShape p with
  | .notARepo => .error (.NotAGitRepository "not a git repository")
  | _ => .ok (tagsList (advertisedTags p.adv) patterns)

/-- Modelled from the spec: the checkout options (spec 3). -/
structure TreeOptions where
  discardGitDir : Bool
deriving DecidableEq, Repr

/-- Modelled from the spec: the checkout builder for a remote-sourced
repository (spec 4.5): the commit's working-tree files plus the
version-control metadata entry `.git/`; when `discardGitDir` is set the
metadata entry is stripped post-checkout. -/
def materialize (commitFiles : List String) (opts : TreeOptions) : List String :=
  let checked := commitFiles ++ [".git/"]
  if opts.discardGitDir then checked.filter (fun e => e ≠ ".git/") else checked

/-- Modelled from the spec: noise a concrete resolution run carries that
must never influence the digest (spec 4.6): authentication material,
connection timing, process identity. -/
structure RunContext where
  cfg : AuthConfig
  connectionTimeMs : Nat
  processId : Nat

/-- Modelled from the spec: the digest computer (spec 4.6): a fingerprint
computed purely from the normalized repository location, the resolved
commit SHA, and the tree options. -/
def fingerprint (loc : Location) (sha : String) (opts : TreeOptions) : String :=
  "git:" ++ renderLocation loc ++ "#" ++ sha ++ "#" ++
    (if opts.discardGitDir then "nogit" else "git")

/-- Modelled from the spec: a full resolution run of one client process
(spec 2): normalize the location string, authenticate with the run's
configuration, resolve the selector over the network, and fingerprint the
result.  The run context is the per-process state of spec 4.6. -/
def resolveAndDigest (locStr : String) (ctx : RunContext) (net : Location → Remote)
    (sel : RefSelector) (opts : TreeOptions) : Except GitErr String :=
  match remoteResolve (normalizeLocation locStr) ctx.cfg net sel with
  | .error e => .error e
  | .ok sha => .ok (fingerprint (normalizeLocation locStr) sha opts)

end Git

/- ============================= Theorems ============================= -/

/-- `refs/tags/` being a prefix in the propositional sense makes the
boolean dispatch test of `matchTag` true. -/
lemma refsTags_isPrefixOf_of_prefix {pat : List Char} (h : "refs/tags/".data <+: pat) :
    ("refs/tags/".data).isPrefixOf pat = true :=
  List.isPrefixOf_iff_prefix.mpr h

/-- A pattern not starting with `refs/` cannot start with `refs/tags/`. -/
lemma refsTags_not_isPrefixOf_of_not_refs {pat : List Char} (h : ¬ "refs/".data <+: pat) :
    ("refs/tags/".data).isPrefixOf pat = false := by
  have hpre : "refs/".data <+: "refs/tags/".data := List.isPrefixOf_iff_prefix.mp (by decide)
  by_contra hne
  have ht : ("refs/tags/".data).isPrefixOf pat = true := by
    cases hb : ("refs/tags/".data).isPrefixOf pat
    · exact absurd hb hne
    · rfl
  exact h (hpre.trans (List.isPrefixOf_iff_prefix.mp ht))

/-- A pattern without a path separator cannot start with `refs/tags/`. -/
lemma refsTags_not_isPrefixOf_of_no_sep {pat : List Char} (h : '/' ∉ pat) :
    ("refs/tags/".data).isPrefixOf pat = false := by
  by_contra hne
  have ht : ("refs/tags/".data).isPrefixOf pat = true := by
    cases hb : ("refs/tags/".data).isPrefixOf pat
    · exact absurd hb hne
    · rfl
  have hp := List.isPrefixOf_iff_prefix.mp ht
  exact h (hp.subset (by decide : '/' ∈ "refs/tags/".data))

/-- C1: the pattern matcher implements the three-tier glob semantics: a
ref-qualified pattern (starting `refs/tags/`) is glob matched anchored
against `refs/tags/<tagFullName>`; a prefix-qualified pattern (containing
a separator, not starting `refs/`) is glob matched anchored against the
full tag name; a bare pattern (no separator) is glob matched against the
basename of the tag name.  Concretely, `v*` matches both `v0.9.3` and
`sdk/go/v0.9.3`; `refs/tags/v*` matches `v0.9.3` but not
`sdk/go/v0.9.3`; `sdk/go/v*` matches `sdk/go/v0.9.3` but not
`v0.9.3`. -/
theorem C1_pattern_matcher_three_tier :
    (∀ tag pat : String, "refs/tags/".data <+: pat.data →
      matchTag tag pat = globMatch pat.data ("refs/tags/".data ++ tag.data))
  ∧ (∀ tag pat : String, '/' ∈ pat.data → ¬ "refs/".data <+: pat.data →
      matchTag tag pat = globMatch pat.data tag.data)
  ∧ (∀ tag pat : String, '/' ∉ pat.data →
      matchTag tag pat = globMatch pat.data (basename tag).data)
  ∧ matchTag "v0.9.3" "v*" = true ∧ matchTag "sdk/go/v0.9.3" "v*" = true
  ∧ matchTag "v0.9.3" "refs/tags/v*" = true ∧ matchTag "sdk/go/v0.9.3" "refs/tags/v*" = false
  ∧ matchTag "sdk/go/v0.9.3" "sdk/go/v*" = true ∧ matchTag "v0.9.3" "sdk/go/v*" = false := by
  refine ⟨?_, ?_, ?_, by decide, by decide, by decide, by decide, by decide, by decide⟩
  · intro tag pat h
    simp [matchTag, refsTags_isPrefixOf_of_prefix h]
  · intro tag pat h1 h2
    simp [matchTag, refsTags_not_isPrefixOf_of_not_refs h2, h1]
  · intro tag pat h
    simp [matchTag, refsTags_not_isPrefixOf_of_no_sep h, h]

/-- Witness for C1: the three tier equations instantiated at the concrete
tag names and patterns of the test suite. -/
theorem C1_pattern_matcher_three_tier_witness :
    matchTag "v0.9.3" "refs/tags/v*"
      = globMatch "refs/tags/v*".data ("refs/tags/".data ++ "v0.9.3".data)
  ∧ matchTag "sdk/go/v0.9.3" "sdk/go/v*" = globMatch "sdk/go/v*".data "sdk/go/v0.9.3".data
  ∧ matchTag "sdk/go/v0.9.3" "v*" = globMatch "v*".data (basename "sdk/go/v0.9.3").data :=
  ⟨C1_pattern_matcher_three_tier.1 "v0.9.3" "refs/tags/v*"
     (List.isPrefixOf_iff_prefix.mp (by decide)),
   C1_pattern_matcher_three_tier.2.1 "sdk/go/v0.9.3" "sdk/go/v*" (by decide)
     (fun hp => absurd (List.isPrefixOf_iff_prefix.mpr hp) (by decide)),
   C1_pattern_matcher_three_tier.2.2.1 "sdk/go/v0.9.3" "v*" (by decide)⟩

namespace Git

/-- A successful remote resolution is exactly a successful resolution of
the selector against the opened remote's advertisement and store; the
credentials do not enter the result. -/
lemma remoteResolve_ok {loc : Location} {cfg : AuthConfig} {net : Location → Remote}
    {sel : RefSelector} {sha : String} (h : remoteResolve loc cfg net sel = .ok sha) :
    resolveRef (net loc).adv (net loc).store sel = .ok sha := by
  unfold remoteResolve at h
  split at h
  · simp at h
  · exact h

end Git

/-- C2: the digest of a resolved ref is computed purely from the
normalized repository location, the resolved commit SHA, and the tree
options: two independent runs (any authentication configurations,
connection timings, and process identities) against the same repository
state that both resolve the same selector obtain identical digests. -/
theorem C2_digest_stability : ∀ (locStr : String) (sel : Git.RefSelector)
    (opts : Git.TreeOptions) (net : Git.Location → Git.Remote)
    (ctx1 ctx2 : Git.RunContext) (d1 d2 : String),
    Git.resolveAndDigest locStr ctx1 net sel opts = .ok d1 →
    Git.resolveAndDigest locStr ctx2 net sel opts = .ok d2 → d1 = d2 := by
  intro locStr sel opts net ctx1 ctx2 d1 d2 h1 h2
  unfold Git.resolveAndDigest at h1 h2
  split at h1
  · simp at h1
  next sha1 hE1 =>
    split at h2
    · simp at h2
    next sha2 hE2 =>
      have r1 := Git.remoteResolve_ok hE1
      have r2 := Git.remoteResolve_ok hE2
      rw [r1] at r2
      cases r2
      cases h1
      cases h2
      rfl

/-- Witness for C2: two runs with different tokens, timings and process
identities resolving `main` of the same repository state produce the
same digest. -/
theorem C2_digest_stability_witness :
    Git.resolveAndDigest "github.com/dagger/dagger" ⟨.token "t1", 5, 100⟩
      (fun _ => ⟨⟨[("refs/heads/main", "abc")], some "abc"⟩, []⟩) (.branch "main") ⟨false⟩
      = .ok "git:https://github.com/dagger/dagger#abc#git"
  ∧ Git.resolveAndDigest "github.com/dagger/dagger" ⟨.header "h2", 9, 200⟩
      (fun _ => ⟨⟨[("refs/heads/main", "abc")], some "abc"⟩, []⟩) (.branch "main") ⟨false⟩
      = .ok "git:https://github.com/dagger/dagger#abc#git"
  ∧ ("git:https://github.com/dagger/dagger#abc#git" : String)
      = "git:https://github.com/dagger/dagger#abc#git" :=
  ⟨rfl, rfl,
    C2_digest_stability "github.com/dagger/dagger" (.branch "main") ⟨false⟩
      (fun _ => ⟨⟨[("refs/heads/main", "abc")], some "abc"⟩, []⟩)
      ⟨.token "t1", 5, 100⟩ ⟨.header "h2", 9, 200⟩
      "git:https://github.com/dagger/dagger#abc#git"
      "git:https://github.com/dagger/dagger#abc#git" rfl rfl⟩

/-- C3: `Tag(name)` resolution first looks up `refs/tags/<name>` in the
advertisement; when that ref is absent it treats the name as a direct
commit-ish and performs a targeted object fetch for exactly that
identifier; only when both paths fail does it fail with `RefNotFound`. -/
theorem C3_tag_selector_fallback : ∀ (adv : Git.Advertisement) (store : List String)
    (n : String),
    (∀ s, Git.lookupRef adv ("refs/tags/" ++ n) = some s →
      Git.resolveRef adv store (.tag n) = .ok s)
  ∧ (Git.lookupRef adv ("refs/tags/" ++ n) = none → store.contains n = true →
      Git.resolveRef adv store (.tag n) = .ok n)
  ∧ (Git.lookupRef adv ("refs/tags/" ++ n) = none → store.contains n = false →
      Git.resolveRef adv store (.tag n) = .error .RefNotFound) := by
  intro adv store n
  refine ⟨?_, ?_, ?_⟩
  · intro s h; simp [Git.resolveRef, h]
  · intro h1 h2
    have hm : n ∈ store := List.elem_iff.mp h2
    simp [Git.resolveRef, h1, Git.fetchObject, hm]
  · intro h1 h2
    have hm : n ∉ store := by simpa using h2
    simp [Git.resolveRef, h1, Git.fetchObject, hm]

/-- Witness for C3: the pull-request head commit of the test suite is not
an advertised tag but is fetchable, so `tag` resolves it to itself. -/
theorem C3_tag_selector_fallback_witness :
    Git.resolveRef ⟨[("refs/heads/main", "m")], some "m"⟩
      ["318970484f692d7a76cfa533c5d47458631c9654"]
      (.tag "318970484f692d7a76cfa533c5d47458631c9654")
    = .ok "318970484f692d7a76cfa533c5d47458631c9654" :=
  (C3_tag_selector_fallback ⟨[("refs/heads/main", "m")], some "m"⟩
    ["318970484f692d7a76cfa533c5d47458631c9654"]
    "318970484f692d7a76cfa533c5d47458631c9654").2.1 rfl rfl

/-- C4: an SSH location with no SSH auth socket configured fails both
`tags()` and any ref resolution with `UnsupportedTransport` carrying the
message `SSH URLs are not supported without an SSH socket`, and the
failure does not depend on the network oracle: it occurs before any
network attempt. -/
theorem C4_ssh_without_socket_fails_early : ∀ (url : String) (patterns : List String)
    (sel : Git.RefSelector) (net net2 : Git.Location → Git.Remote),
    Git.remoteTags (.ssh url) .noAuth net patterns
      = .error (.UnsupportedTransport "SSH URLs are not supported without an SSH socket")
  ∧ Git.remoteResolve (.ssh url) .noAuth net sel
      = .error (.UnsupportedTransport "SSH URLs are not supported without an SSH socket")
  ∧ Git.remoteTags (.ssh url) .noAuth net patterns
      = Git.remoteTags (.ssh url) .noAuth net2 patterns
  ∧ Git.remoteResolve (.ssh url) .noAuth net sel
      = Git.remoteResolve (.ssh url) .noAuth net2 sel := by
  intro url patterns sel net net2
  exact ⟨rfl, rfl, rfl, rfl⟩

/-- C5: a local path that is neither a working tree containing a `.git`
subdirectory, nor a bare repository root, nor itself a `.git` directory
fails every operation (ref resolution and tag enumeration alike) with
`NotAGitRepository` whose text is `not a git repository`; no operation
partially succeeds. -/
theorem C5_not_a_repo_all_ops_fail : ∀ (p : Git.LocalPath) (sel : Git.RefSelector)
    (patterns : List String),
    p.hasGitSubdir = false → p.isBareRoot = false → p.isGitDotDir = false →
    Git.localResolve p sel = .error (.NotAGitRepository "not a git repository")
  ∧ Git.localTags p patterns = .error (.NotAGitRepository "not a git repository") := by
  intro p sel patterns h1 h2 h3
  have hd : Git.detectShape p = .notARepo := by simp [Git.detectShape, h1, h2, h3]
  exact ⟨by simp [Git.localResolve, hd], by simp [Git.localTags, hd]⟩

/-- Witness for C5: an empty directory is not a repository and both head
resolution and tag enumeration fail with `NotAGitRepository`. -/
theorem C5_not_a_repo_all_ops_fail_witness :
    Git.localResolve ⟨false, false, false, ⟨[], none⟩, []⟩ .head
      = .error (.NotAGitRepository "not a git repository")
  ∧ Git.localTags ⟨false, false, false, ⟨[], none⟩, []⟩ []
      = .error (.NotAGitRepository "not a git repository") :=
  C5_not_a_repo_all_ops_fail ⟨false, false, false, ⟨[], none⟩, []⟩ .head [] rfl rfl rfl

/-- C6: `Commit(sha)` resolution is a round-trip identity for every
fetchable sha, always takes the targeted object-fetch path and never
consults the advertisement (the result is the same under any two
advertisements), and fails with `RefNotFound` when the object is
absent. -/
theorem C6_commit_selector_roundtrip : ∀ (adv adv2 : Git.Advertisement)
    (store : List String) (sha : String),
    (store.contains sha = true → Git.resolveRef adv store (.commit sha) = .ok sha)
  ∧ (store.contains sha = false →
      Git.resolveRef adv store (.commit sha) = .error .RefNotFound)
  ∧ Git.resolveRef adv store (.commit sha) = Git.resolveRef adv2 store (.commit sha) := by
  intro adv adv2 store sha
  refine ⟨?_, ?_, rfl⟩
  · intro h
    have hm : sha ∈ store := List.elem_iff.mp h
    simp [Git.resolveRef, Git.fetchObject, hm]
  · intro h
    have hm : sha ∉ store := by simpa using h
    simp [Git.resolveRef, Git.fetchObject, hm]

/-- Witness for C6: the commit sha pinned by the test suite resolves to
itself even under an empty advertisement. -/
theorem C6_commit_selector_roundtrip_witness :
    Git.resolveRef ⟨[], none⟩ ["c80ac2c13df7d573a069938e01ca13f7a81f0345"]
      (.commit "c80ac2c13df7d573a069938e01ca13f7a81f0345")
    = .ok "c80ac2c13df7d573a069938e01ca13f7a81f0345" :=
  (C6_commit_selector_roundtrip ⟨[], none⟩ ⟨[], none⟩
    ["c80ac2c13df7d573a069938e01ca13f7a81f0345"]
    "c80ac2c13df7d573a069938e01ca13f7a81f0345").1 rfl

/-- C7: `tags(patterns)` returns exactly the advertised tag names for
which at least one supplied pattern matches, OR semantics across
patterns, and an empty pattern list returns every advertised tag. -/
theorem C7_tags_enumeration_or_semantics : ∀ (advertised patterns : List String)
    (t : String),
    t ∈ tagsList advertised patterns
      ↔ t ∈ advertised ∧ (patterns = [] ∨ ∃ p ∈ patterns, matchTag t p = true) := by
  intro advertised patterns t
  simp [tagsList, List.mem_filter, List.isEmpty_iff, List.any_eq_true]

/-- C8: the snapshot of a remote-sourced repository materialized with
`discardGitDir := true` never contains the version-control metadata entry
`.git/`, and the snapshot materialized with `discardGitDir := false` (the
default) does contain it. -/
theorem C8_discard_git_dir : ∀ (commitFiles : List String),
    ".git/" ∉ Git.materialize commitFiles ⟨true⟩
  ∧ ".git/" ∈ Git.materialize commitFiles ⟨false⟩ := by
  intro commitFiles
  constructor
  · simp [Git.materialize, List.mem_filter]
  · simp [Git.materialize]

namespace Introspection

/-- `Types.get` is the first-match scan: it agrees with `List.find?` on
the name predicate. -/
lemma get_eq_find : ∀ (ts : Types) (s : String),
    Types.get ts s = ts.find? (fun t => t.name == s)
  | [], _ => rfl
  | t :: ts, s => by
      by_cases h : t.name = s
      · simp [Types.get, h, List.find?_cons_of_pos]
      · have hb : (t.name == s) = false := by simp [h]
        simp [Types.get, h, List.find?_cons_of_neg, hb, get_eq_find ts s]

end Introspection

/-- C9: `Types.Get` returns the first element of the slice whose `Name`
equals the argument (it agrees with `List.find?` on the name predicate)
and `nil` when no element matches; consequently `Schema.Query`,
`Schema.Mutation` and `Schema.Subscription` are total and return `nil`
rather than failing when the schema holds no type with the named root
type's name. -/
theorem C9_types_get_first_match : ∀ (ts : Introspection.Types) (s : String)
    (sch : Introspection.Schema),
    Introspection.Types.get ts s = ts.find? (fun t => t.name == s)
  ∧ ((∀ t ∈ ts, t.name ≠ s) → Introspection.Types.get ts s = none)
  ∧ ((∀ t ∈ sch.types, t.name ≠ sch.queryTypeName) → sch.query = none)
  ∧ ((∀ t ∈ sch.types, t.name ≠ sch.mutationTypeName) → sch.mutation = none)
  ∧ ((∀ t ∈ sch.types, t.name ≠ sch.subscriptionTypeName) → sch.subscription = none) := by
  intro ts s sch
  have hnone : ∀ (l : Introspection.Types) (nm : String),
      (∀ t ∈ l, t.name ≠ nm) → Introspection.Types.get l nm = none := by
    intro l nm h
    rw [Introspection.get_eq_find]
    exact List.find?_eq_none.mpr (fun x hx => by simp [h x hx])
  exact ⟨Introspection.get_eq_find ts s, hnone ts s,
    fun h => hnone _ _ h, fun h => hnone _ _ h, fun h => hnone _ _ h⟩

/-- Witness for C9: a schema whose type list lacks the query root type
name yields `none` from `query` rather than failing. -/
theorem C9_types_get_first_match_witness :
    Introspection.Schema.query
      ⟨"Query", "Mutation", "Subscription", [⟨"OBJECT", "Container"⟩]⟩ = none :=
  (C9_types_get_first_match [⟨"OBJECT", "Container"⟩] "Query"
    ⟨"Query", "Mutation", "Subscription", [⟨"OBJECT", "Container"⟩]⟩).2.2.1 (by decide)

namespace Introspection

/-- A custom scalar ref is in particular a scalar ref. -/
theorem custom_imp_scalar : ∀ r : TypeRef,
    TypeRef.isCustomScalar r = true → TypeRef.isScalar r = true
  | .mk k n none => by
      intro h
      simp only [TypeRef.isCustomScalar, Bool.and_eq_true] at h
      simpa [TypeRef.isScalar] using h.1
  | .mk k n (some r') => by
      intro h
      by_cases hk : k = "SCALAR"
      · simp [TypeRef.isScalar, hk]
      · simp only [TypeRef.isCustomScalar, if_neg hk] at h
        simp [TypeRef.isScalar, custom_imp_scalar r' h]

/-- `isScalar` holds exactly when some ref along the `OfType` chain has
kind `SCALAR`. -/
theorem scalar_iff : ∀ r : TypeRef,
    TypeRef.isScalar r = true ↔ ∃ x ∈ TypeRef.chain r, TypeRef.kind x = "SCALAR"
  | .mk k n none => by
      simp [TypeRef.isScalar, TypeRef.chain, TypeRef.kind]
  | .mk k n (some r') => by
      simp [TypeRef.isScalar, TypeRef.chain, TypeRef.kind, scalar_iff r']

/-- `isCustomScalar` holds exactly when the first `SCALAR`-kinded ref of
the `OfType` chain exists and is named none of the four builtin
scalars. -/
theorem custom_iff : ∀ r : TypeRef, TypeRef.isCustomScalar r = true ↔
    ∃ x, (TypeRef.chain r).find? (fun y => TypeRef.kind y == "SCALAR") = some x ∧
      TypeRef.name x ≠ "Int" ∧ TypeRef.name x ≠ "Float" ∧
      TypeRef.name x ≠ "String" ∧ TypeRef.name x ≠ "Boolean"
  | .mk k n none => by
      by_cases hk : k = "SCALAR"
      · simp [TypeRef.isCustomScalar, TypeRef.chain, TypeRef.kind, TypeRef.name, hk,
          List.find?]
        tauto
      · have hb : (k == "SCALAR") = false := by simp [hk]
        simp [TypeRef.isCustomScalar, TypeRef.chain, TypeRef.kind, hk, hb, List.find?]
  | .mk k n (some r') => by
      by_cases hk : k = "SCALAR"
      · simp [TypeRef.isCustomScalar, TypeRef.chain, TypeRef.kind, TypeRef.name, hk,
          List.find?]
        tauto
      · have hb : (k == "SCALAR") = false := by simp [hk]
        simp [TypeRef.isCustomScalar, TypeRef.chain, TypeRef.kind, hk, hb, List.find?,
          custom_iff r']

end Introspection

/-- C10: `IsCustomScalar` is true exactly when following the `OfType`
chain reaches a ref of kind `SCALAR` whose first occurrence is named none
of `Int`, `Float`, `String`, `Boolean`; `IsScalar` is true exactly when
some ref along the chain has kind `SCALAR`; and `IsCustomScalar` implies
`IsScalar`. -/
theorem C10_typeref_scalar_classification : ∀ r : Introspection.TypeRef,
    (Introspection.TypeRef.isScalar r = true
      ↔ ∃ x ∈ Introspection.TypeRef.chain r, Introspection.TypeRef.kind x = "SCALAR")
  ∧ (Introspection.TypeRef.isCustomScalar r = true ↔
      ∃ x, (Introspection.TypeRef.chain r).find?
            (fun y => Introspection.TypeRef.kind y == "SCALAR") = some x ∧
        Introspection.TypeRef.name x ≠ "Int" ∧ Introspection.TypeRef.name x ≠ "Float" ∧
        Introspection.TypeRef.name x ≠ "String" ∧ Introspection.TypeRef.name x ≠ "Boolean")
  ∧ (Introspection.TypeRef.isCustomScalar r = true
      → Introspection.TypeRef.isScalar r = true) :=
  fun r => ⟨Introspection.scalar_iff r, Introspection.custom_iff r,
    Introspection.custom_imp_scalar r⟩

/-- Witness for C10: a non-null wrapper around the custom scalar `JSON`
is a custom scalar, hence a scalar. -/
theorem C10_typeref_scalar_classification_witness :
    Introspection.TypeRef.isScalar (.mk "NON_NULL" "" (some (.mk "SCALAR" "JSON" none)))
      = true :=
  (C10_typeref_scalar_classification
    (.mk "NON_NULL" "" (some (.mk "SCALAR" "JSON" none)))).2.2 rfl
